import Mathlib

/-!
Shallow embedding of the billing-ledger core of `src/app.js` (pruhteam).

JavaScript numbers are modelled as exact rationals (`ℚ`); the firestore
document collections for invoices and vouchers are modelled as lists held
in a `Store` record; the atomic `runTransaction` of
`PaymentVouchers.handleSave` is modelled as a function
`Store → Except PayError Store`: on success the returned store carries
both writes, on failure no store is produced (the `try/catch` wrapper
`handleSaveVoucher` keeps the old store).

Status strings of the source are mapped to an inductive type:
`'قيد الانتظار'` ↦ `pending`, `'مدفوعة جزئياً'` ↦ `partlyPaid`,
`'مدفوعة'` ↦ `paid`, `'متأخرة'` ↦ `overdue`.
-/

namespace Pruhteam

/-- Invoice status enum (the Arabic status strings of the source). -/
inductive Status where
  | pending
  | partlyPaid
  | paid
  | overdue
  deriving DecidableEq, Repr

/-- A line item of an invoice: `{ serviceId, name, quantity, price }`. -/
structure LineItem where
  serviceId : String
  name : String
  quantity : ℚ
  price : ℚ
  deriving DecidableEq, Repr

/-- An invoice document.  `paidAmount` is `Option ℚ` because the stored
field may be absent (`undefined`) on documents created before any payment
logic ran; the source guards every read of it with `|| 0`.  `month` models
the value of `new Date(inv.date).getMonth()` used by the dashboard. -/
structure Invoice where
  id : Nat
  invoiceNumber : Int
  customerId : String
  customerName : String
  month : Fin 12
  items : List LineItem
  total : ℚ
  paidAmount : Option ℚ
  remainingAmount : ℚ
  status : Status
  deriving DecidableEq, Repr

/-- The data the payment-voucher form submits to `handleSave`
(`{ customerId, invoiceId, amount, date, customerName, invoiceNumber }`,
with `amount` already converted by `Number(...)`). -/
structure VoucherData where
  customerId : String
  invoiceId : Nat
  amount : ℚ
  date : String
  customerName : String
  invoiceNumber : Int
  deriving DecidableEq, Repr

/-- A stored voucher document: the submitted voucher data plus the
allocated `voucherNumber` (the `createdAt` server timestamp is omitted —
no claim mentions it). -/
structure Voucher where
  customerId : String
  invoiceId : Nat
  amount : ℚ
  date : String
  customerName : String
  invoiceNumber : Int
  voucherNumber : Int
  deriving DecidableEq, Repr

/-- The tenant's ledger store: the `invoices` and `vouchers` collections. -/
structure Store where
  invoices : List Invoice
  vouchers : List Voucher
  deriving DecidableEq, Repr

/-- The only error the payment transaction can raise in the source:
`throw "Invoice does not exist!"` (app.js line 907). -/
inductive PayError where
  | notFound
  deriving DecidableEq, Repr

/-- Sequential number allocation as written inline at app.js lines 504 and
924: `list.length > 0 ? Math.max(...list.map(r => r.number)) + 1 : floor`
(here over the already-mapped list of numbers). -/
def nextNumber : List Int → Int → Int
  | [], floor => floor
  | n :: ns, _ => ns.foldl max n + 1

/-- `InvoiceForm.calculateTotal` (app.js line 632):
`items.reduce((sum, item) => sum + (Number(item.quantity) * Number(item.price)), 0)`. -/
def calculateTotal (items : List LineItem) : ℚ :=
  items.foldl (fun sum item => sum + item.quantity * item.price) 0

/-- The fields the invoice form collects (`customerId`, `customerName`,
`date`, `items`; its `total` field is maintained by a `useEffect` to be
`calculateTotal items`, so it is not a free input here). -/
structure InvoiceForm where
  customerId : String
  customerName : String
  month : Fin 12
  items : List LineItem
  deriving DecidableEq, Repr

/-- `Invoices.handleSave`, creation branch (app.js lines 491-505): builds
`dataToSave` with `total = Number(formData.total)`,
`paidAmount = Number(formData.paidAmount) || 0` (the form has no
`paidAmount` field, so `Number(undefined) || 0 = 0`),
`remainingAmount = total - paidAmount`, then `addDoc` with
`invoiceNumber = nextNumber` (floor 1001) and the hardcoded status
`'قيد الانتظار'` (pending). -/
def invoiceSaveCreate (existing : List Invoice) (newId : Nat) (f : InvoiceForm) : Invoice :=
  let total := calculateTotal f.items
  { id := newId
    invoiceNumber := nextNumber (existing.map (·.invoiceNumber)) 1001
    customerId := f.customerId
    customerName := f.customerName
    month := f.month
    items := f.items
    total := total
    paidAmount := some 0
    remainingAmount := total - 0
    status := Status.pending }

/-- `Invoices.handleSave`, edit branch (app.js lines 491-502): the form
state was seeded with `{ ...invoice, items }`, so the submitted data keeps
the invoice's `invoiceNumber`, `status` and `paidAmount`; `handleSave`
recomputes `total`, `paidAmount || 0` and `remainingAmount` and calls
`updateDoc` — the stored `status` is rewritten unchanged. -/
def invoiceSaveEdit (inv : Invoice) (f : InvoiceForm) : Invoice :=
  let total := calculateTotal f.items
  let paid := inv.paidAmount.getD 0
  { inv with
    customerId := f.customerId
    customerName := f.customerName
    month := f.month
    items := f.items
    total := total
    paidAmount := some paid
    remainingAmount := total - paid }

/-- The voucher document written by the payment transaction
(`{ ...voucherData, voucherNumber, createdAt }`, app.js line 925). -/
def mkVoucher (vd : VoucherData) (n : Int) : Voucher :=
  { customerId := vd.customerId
    invoiceId := vd.invoiceId
    amount := vd.amount
    date := vd.date
    customerName := vd.customerName
    invoiceNumber := vd.invoiceNumber
    voucherNumber := n }

/-- The invoice update of the payment transaction (app.js lines 910-922):
`newPaidAmount = (invoiceData.paidAmount || 0) + voucherData.amount`,
`newRemainingAmount = invoiceData.total - newPaidAmount`,
`newStatus = 'مدفوعة جزئياً'; if (newRemainingAmount <= 0) newStatus = 'مدفوعة'`. -/
def applyVoucher (inv : Invoice) (amount : ℚ) : Invoice :=
  let newPaidAmount := inv.paidAmount.getD 0 + amount
  let newRemainingAmount := inv.total - newPaidAmount
  let newStatus := if newRemainingAmount ≤ 0 then Status.paid else Status.partlyPaid
  { inv with
    paidAmount := some newPaidAmount
    remainingAmount := newRemainingAmount
    status := newStatus }

/-- The body of `runTransaction` in `PaymentVouchers.handleSave` (app.js
lines 900-926): get the invoice by id, throw if absent (aborting the
transaction, so no store is produced), otherwise update the invoice and
set the new voucher (number allocated with floor 1) in one atomic commit. -/
def recordPayment (st : Store) (vd : VoucherData) : Except PayError Store :=
  match st.invoices.find? (fun i => i.id == vd.invoiceId) with
  | none => Except.error PayError.notFound
  | some inv =>
    let updated := applyVoucher inv vd.amount
    let newVoucherNumber := nextNumber (st.vouchers.map (·.voucherNumber)) 1
    Except.ok
      { invoices := st.invoices.map fun i => if i.id == vd.invoiceId then updated else i
        vouchers := st.vouchers ++ [mkVoucher vd newVoucherNumber] }

/-- The `try { runTransaction ... } catch (e) { console.error(...) }`
wrapper of `PaymentVouchers.handleSave` (app.js lines 898-932): on failure
the store is left untouched and the error is reported. -/
def handleSaveVoucher (st : Store) (vd : VoucherData) : Store × Option PayError :=
  match recordPayment st vd with
  | Except.ok st' => (st', none)
  | Except.error e => (st, some e)

/-- Modelled from the spec (§4.2): `deriveStatus(total, paidAmount)` —
`Paid` if `remaining <= 0`; `PartiallyPaid` if `0 < paidAmount`; else
`Pending`.  This is the specification-side derivation, kept separate so
the persisted statuses of the source can be compared against it. -/
def deriveStatusSpec (total paidAmount : ℚ) : Status :=
  if total - paidAmount ≤ 0 then Status.paid
  else if 0 < paidAmount then Status.partlyPaid
  else Status.pending

/-- The invariant of spec §3: `remainingAmount == total - paidAmount`
(with an absent `paidAmount` read as 0, as everywhere in the source). -/
def remInvariant (inv : Invoice) : Prop :=
  inv.remainingAmount = inv.total - inv.paidAmount.getD 0

instance (inv : Invoice) : Decidable (remInvariant inv) := by
  unfold remInvariant; infer_instance

/-- The dashboard's fixed locale month-name table (app.js line 308). -/
def monthNames : List String :=
  ["يناير", "فبراير", "مارس", "أبريل", "مايو", "يونيو",
   "يوليو", "أغسطس", "سبتمبر", "أكتوبر", "نوفمبر", "ديسمبر"]

/-- `monthNames[new Date(inv.date).getMonth()]` (app.js lines 310-311). -/
def monthName (m : Fin 12) : String :=
  monthNames.getD m.val ""

/-- One bucket of the dashboard's `monthlySales` object:
`{ name: monthName, sales }`. -/
structure MonthBucket where
  name : String
  sales : ℚ
  deriving DecidableEq, Repr

/-- One step of the dashboard's grouping loop (app.js lines 312-315):
`if (!monthlySales[monthName]) monthlySales[monthName] = { name, sales: 0 };
monthlySales[monthName].sales += Number(inv.total)`.  A JavaScript object
keeps keys in insertion order and `Object.values` reads them back in that
order, so the object is modelled as an association list to which a new
month is appended at the end. -/
def bumpMonth (acc : List MonthBucket) (nm : String) (t : ℚ) : List MonthBucket :=
  if acc.any (fun b => b.name == nm) then
    acc.map fun b => if b.name == nm then { name := b.name, sales := b.sales + t } else b
  else
    acc ++ [{ name := nm, sales := t }]

/-- The dashboard's `monthlySales`/`chartData` series (app.js lines
307-318): fold the grouping step over the invoice collection. -/
def monthlySales (invs : List Invoice) : List MonthBucket :=
  invs.foldl (fun acc inv => bumpMonth acc (monthName inv.month) inv.total) []

/-- `totalSales = allInvoices.reduce((sum, inv) => sum + Number(inv.total), 0)`
(app.js line 303). -/
def totalSales (invs : List Invoice) : ℚ :=
  invs.foldl (fun sum inv => sum + inv.total) 0

/-- `profit: totalSales * 0.25` (app.js line 324). -/
def estimatedProfit (invs : List Invoice) : ℚ :=
  totalSales invs * 0.25

/-- First-seen order of a list of names: the order in which a JavaScript
object accumulates its keys.  Used to state the ordering of the
`monthlySales` series. -/
def firstSeen (names : List String) : List String :=
  names.foldl (fun acc n => if n ∈ acc then acc else acc ++ [n]) []

/-! Concrete sample data, used by witnesses and counterexamples. -/

/-- A sample line item worth 100. -/
def itemSetup : LineItem :=
  { serviceId := "s1", name := "Setup", quantity := 1, price := 100 }

/-- A sample invoice: total 100, already paid 40. -/
def inv100 : Invoice :=
  { id := 1, invoiceNumber := 1001, customerId := "c1", customerName := "Ali"
    month := 0, items := [itemSetup], total := 100, paidAmount := some 40
    remainingAmount := 60, status := Status.partlyPaid }

/-- A sample invoice whose stored `paidAmount` field is absent. -/
def invNone : Invoice :=
  { id := 2, invoiceNumber := 1002, customerId := "c2", customerName := "Sara"
    month := 1, items := [itemSetup], total := 100, paidAmount := none
    remainingAmount := 100, status := Status.pending }

/-- A sample store holding the two invoices and no vouchers. -/
def st0 : Store := { invoices := [inv100, invNone], vouchers := [] }

/-- A voucher submission of 30 against invoice 1. -/
def vd30 : VoucherData :=
  { customerId := "c1", invoiceId := 1, amount := 30, date := "2025-02-01"
    customerName := "Ali", invoiceNumber := 1001 }

/-- A voucher submission with a non-positive amount. -/
def vdNeg : VoucherData := { vd30 with amount := -5 }

/-- A voucher submission of 100 against invoice 1 (remaining is only 60). -/
def vdOver : VoucherData := { vd30 with amount := 100 }

/-- A voucher submission against a non-existent invoice id. -/
def vdMissing : VoucherData := { vd30 with invoiceId := 99 }

/-- A voucher submission of 25 against the invoice with no stored
`paidAmount`. -/
def vdAbsent : VoucherData := { vd30 with invoiceId := 2, amount := 25 }

/-- A sample edit form bringing the invoice's items down to a total of 20. -/
def form20 : InvoiceForm :=
  { customerId := "c1", customerName := "Ali", month := 0
    items := [{ serviceId := "s1", name := "Setup", quantity := 1, price := 20 }] }

/-- A sample invoice collection for the dashboard: months 0, 1, 0 with
totals 100, 100, 50. -/
def dashInvs : List Invoice := [inv100, invNone, { inv100 with id := 3, total := 50 }]

/-! Helper lemmas. -/

theorem foldl_add_map_sum {α : Type} (f : α → ℚ) :
    ∀ (l : List α) (a : ℚ), l.foldl (fun s x => s + f x) a = a + (l.map f).sum := by
  intro l
  induction l with
  | nil => intro a; simp
  | cons x xs ih => intro a; simp [List.foldl_cons, ih, add_assoc]

theorem calculateTotal_eq_sum (items : List LineItem) :
    calculateTotal items = (items.map fun it => it.quantity * it.price).sum := by
  simpa using foldl_add_map_sum (fun it : LineItem => it.quantity * it.price) items 0

theorem foldl_max_init_le : ∀ (ns : List Int) (n : Int), n ≤ ns.foldl max n := by
  intro ns
  induction ns with
  | nil => intro n; exact le_refl n
  | cons m ms ih => intro n; exact le_trans (le_max_left n m) (ih (max n m))

theorem foldl_max_le_of_mem :
    ∀ (ns : List Int) (n x : Int), x ∈ ns → x ≤ ns.foldl max n := by
  intro ns
  induction ns with
  | nil => intro n x hx; cases hx
  | cons m ms ih =>
    intro n x hx
    rcases List.mem_cons.mp hx with h | h
    · subst h; exact le_trans (le_max_right n x) (foldl_max_init_le ms (max n x))
    · exact ih (max n m) x h

theorem foldl_max_mem :
    ∀ (ns : List Int) (n : Int), ns.foldl max n = n ∨ ns.foldl max n ∈ ns := by
  intro ns
  induction ns with
  | nil => intro n; exact Or.inl rfl
  | cons m ms ih =>
    intro n
    rcases ih (max n m) with h | h
    · rcases max_choice n m with hn | hm
      · exact Or.inl (by rw [List.foldl_cons, h, hn])
      · exact Or.inr (by rw [List.foldl_cons, h, hm]; exact List.mem_cons_self m ms)
    · exact Or.inr (List.mem_cons_of_mem m h)

theorem recordPayment_found {st : Store} {vd : VoucherData} {inv : Invoice}
    (h : st.invoices.find? (fun i => i.id == vd.invoiceId) = some inv) :
    recordPayment st vd = Except.ok
      { invoices := st.invoices.map fun i =>
          if i.id == vd.invoiceId then applyVoucher inv vd.amount else i
        vouchers := st.vouchers ++
          [mkVoucher vd (nextNumber (st.vouchers.map (·.voucherNumber)) 1)] } := by
  unfold recordPayment
  rw [h]

theorem applyVoucher_mem {st : Store} {vd : VoucherData} {inv : Invoice}
    (h : st.invoices.find? (fun i => i.id == vd.invoiceId) = some inv) :
    applyVoucher inv vd.amount ∈
      st.invoices.map fun i =>
        if i.id == vd.invoiceId then applyVoucher inv vd.amount else i := by
  refine List.mem_map.mpr ⟨inv, List.mem_of_find?_eq_some h, ?_⟩
  rw [List.find?_some h]
  rfl

theorem applyVoucher_id (inv : Invoice) (amount : ℚ) :
    (applyVoucher inv amount).id = inv.id := by
  simp [applyVoucher]

theorem mem_of_map_ne {st : Store} {vd : VoucherData} {inv : Invoice} {i : Invoice}
    (hfind : st.invoices.find? (fun j => j.id == vd.invoiceId) = some inv)
    (hi : i ∈ st.invoices.map fun j =>
        if j.id == vd.invoiceId then applyVoucher inv vd.amount else j)
    (hne : i.id ≠ vd.invoiceId) : i ∈ st.invoices := by
  obtain ⟨j, hj, hji⟩ := List.mem_map.mp hi
  by_cases hc : (j.id == vd.invoiceId) = true
  · rw [if_pos hc] at hji
    exfalso
    apply hne
    rw [← hji, applyVoucher_id]
    have hpred := List.find?_some hfind
    exact eq_of_beq hpred
  · rw [if_neg hc] at hji
    rw [← hji]
    exact hj

theorem any_name_eq (acc : List MonthBucket) (nm : String) :
    (acc.any fun b => b.name == nm) = true ↔ nm ∈ acc.map (·.name) := by
  simp [List.any_eq_true, List.mem_map]

theorem bumpMonth_names (acc : List MonthBucket) (nm : String) (t : ℚ) :
    (bumpMonth acc nm t).map (·.name) =
      if nm ∈ acc.map (·.name) then acc.map (·.name)
      else acc.map (·.name) ++ [nm] := by
  unfold bumpMonth
  by_cases h : nm ∈ acc.map (·.name)
  · rw [if_pos ((any_name_eq acc nm).mpr h), if_pos h, List.map_map]
    apply List.map_congr_left
    intro b _
    simp only [Function.comp_apply]
    split <;> rfl
  · rw [if_neg (fun hc => h ((any_name_eq acc nm).mp hc)), if_neg h, List.map_append]
    rfl

theorem bumpMonth_nodup (acc : List MonthBucket) (nm : String) (t : ℚ)
    (hnd : (acc.map (·.name)).Nodup) :
    ((bumpMonth acc nm t).map (·.name)).Nodup := by
  rw [bumpMonth_names]
  by_cases h : nm ∈ acc.map (·.name)
  · rw [if_pos h]
    exact hnd
  · rw [if_neg h, List.nodup_append]
    refine ⟨hnd, List.nodup_singleton nm, ?_⟩
    intro a ha hb
    rw [List.mem_singleton] at hb
    exact h (hb ▸ ha)

theorem monthlyGo_names :
    ∀ (invs : List Invoice) (acc : List MonthBucket),
      ((invs.foldl (fun a i => bumpMonth a (monthName i.month) i.total) acc).map (·.name))
        = invs.foldl
            (fun ns i => if monthName i.month ∈ ns then ns else ns ++ [monthName i.month])
            (acc.map (·.name)) := by
  intro invs
  induction invs with
  | nil => intro acc; rfl
  | cons i is ih =>
    intro acc
    rw [List.foldl_cons, List.foldl_cons, ih, bumpMonth_names]

theorem monthlySales_names (invs : List Invoice) :
    (monthlySales invs).map (·.name) = firstSeen (invs.map fun i => monthName i.month) := by
  unfold monthlySales firstSeen
  rw [monthlyGo_names invs [], List.foldl_map]
  rfl

theorem mem_foldl_firstSeen (x : String) :
    ∀ (names : List String) (acc : List String),
      (x ∈ names.foldl (fun a n => if n ∈ a then a else a ++ [n]) acc)
        ↔ x ∈ acc ∨ x ∈ names := by
  intro names
  induction names with
  | nil => intro acc; simp
  | cons n ns ih =>
    intro acc
    rw [List.foldl_cons, ih]
    by_cases h : n ∈ acc
    · rw [if_pos h]
      constructor
      · rintro (hx | hx)
        · exact Or.inl hx
        · exact Or.inr (List.mem_cons_of_mem n hx)
      · rintro (hx | hx)
        · exact Or.inl hx
        · rcases List.mem_cons.mp hx with he | hx
          · exact Or.inl (by rw [he]; exact h)
          · exact Or.inr hx
    · rw [if_neg h]
      simp only [List.mem_append, List.mem_cons, List.not_mem_nil, or_false]
      tauto

theorem mem_firstSeen (x : String) (names : List String) :
    x ∈ firstSeen names ↔ x ∈ names := by
  unfold firstSeen
  rw [mem_foldl_firstSeen]
  simp

theorem monthlyGo_nodup :
    ∀ (invs : List Invoice) (acc : List MonthBucket),
      (acc.map (·.name)).Nodup →
      ((invs.foldl (fun a i => bumpMonth a (monthName i.month) i.total) acc).map (·.name)).Nodup := by
  intro invs
  induction invs with
  | nil => intro acc h; exact h
  | cons i is ih => intro acc h; exact ih _ (bumpMonth_nodup acc _ _ h)

theorem monthlySales_nodup (invs : List Invoice) :
    ((monthlySales invs).map (·.name)).Nodup :=
  monthlyGo_nodup invs [] (by simp)

theorem monthlySales_append (invs : List Invoice) (i : Invoice) :
    monthlySales (invs ++ [i]) = bumpMonth (monthlySales invs) (monthName i.month) i.total := by
  unfold monthlySales
  rw [List.foldl_append]
  rfl

theorem monthlySales_bucket :
    ∀ (invs : List Invoice) (b : MonthBucket), b ∈ monthlySales invs →
      b.sales = ((invs.filter fun i => monthName i.month == b.name).map (·.total)).sum := by
  intro invs
  induction invs using List.reverseRecOn with
  | nil => intro b hb; simp [monthlySales] at hb
  | append_singleton l i ih =>
    intro b hb
    rw [monthlySales_append] at hb
    rw [List.filter_append, List.map_append, List.sum_append]
    unfold bumpMonth at hb
    by_cases hpres : ((monthlySales l).any fun c => c.name == monthName i.month) = true
    · rw [if_pos hpres] at hb
      obtain ⟨c, hc, hcb⟩ := List.mem_map.mp hb
      by_cases hcn : (c.name == monthName i.month) = true
      · rw [if_pos hcn] at hcb
        have hcn' : c.name = monthName i.month := by simpa using hcn
        have hbname : b.name = c.name := by rw [← hcb]
        have hbsales : b.sales = c.sales + i.total := by rw [← hcb]
        rw [hbsales, hbname, ih c hc]
        congr 1
        simp [List.filter_cons, hcn']
      · rw [if_neg hcn] at hcb
        have hbc : b = c := hcb.symm
        subst hbc
        have hne : (monthName i.month == b.name) = false := by
          rcases Bool.eq_false_or_eq_true (monthName i.month == b.name) with ht | hf
          · exact absurd (by simpa using (eq_of_beq ht).symm) (by simpa using hcn)
          · exact hf
        rw [ih b hc]
        simp [List.filter_cons, hne]
    · rw [if_neg hpres] at hb
      rcases List.mem_append.mp hb with hold | hnew
      · have hbk : (monthName i.month == b.name) = false := by
          rcases Bool.eq_false_or_eq_true (monthName i.month == b.name) with ht | hf
          · exfalso
            apply hpres
            exact List.any_eq_true.mpr ⟨b, hold, by simpa using (eq_of_beq ht).symm⟩
          · exact hf
        rw [ih b hold]
        simp [List.filter_cons, hbk]
      · have hb' : b = { name := monthName i.month, sales := i.total } := by
          simpa using hnew
        subst hb'
        have hnone : ∀ j ∈ l, ¬ ((monthName j.month ==
            (MonthBucket.mk (monthName i.month) i.total).name) = true) := by
          intro j hj hjk
          apply hpres
          have hkey : monthName i.month ∈ (monthlySales l).map (·.name) := by
            rw [monthlySales_names, mem_firstSeen]
            exact List.mem_map.mpr ⟨j, hj, by simpa using hjk⟩
          obtain ⟨c, hc, hcn⟩ := List.mem_map.mp hkey
          exact List.any_eq_true.mpr ⟨c, hc, by simp [hcn]⟩
        rw [List.filter_eq_nil_iff.mpr hnone]
        simp [List.filter_cons]

/-! The claims. -/

/-- C1: for every invoice with a stored numeric `paidAmount` and every
payment amount, `recordPayment` computes `newPaid = paidAmount + amount`
and `newRemaining = total - newPaid`, sets the status to `Paid` when
`newRemaining ≤ 0` and to `PartiallyPaid` otherwise, and commits the
updated invoice fields together with the new voucher (with its allocated
number) in one indivisible unit: on success both writes are in the
returned store, on failure no store is produced and the caller's store is
unchanged. -/
theorem C1_payment_transaction :
    (∀ (st : Store) (vd : VoucherData) (inv : Invoice) (p : ℚ),
      st.invoices.find? (fun i => i.id == vd.invoiceId) = some inv →
      inv.paidAmount = some p →
      ∃ st', recordPayment st vd = Except.ok st' ∧
        st'.vouchers = st.vouchers
          ++ [mkVoucher vd (nextNumber (st.vouchers.map (·.voucherNumber)) 1)] ∧
        { inv with
            paidAmount := some (p + vd.amount)
            remainingAmount := inv.total - (p + vd.amount)
            status := if inv.total - (p + vd.amount) ≤ 0 then Status.paid
                      else Status.partlyPaid } ∈ st'.invoices ∧
        (∀ i ∈ st'.invoices, i.id ≠ vd.invoiceId → i ∈ st.invoices)) ∧
    (∀ (st : Store) (vd : VoucherData) (e : PayError),
      recordPayment st vd = Except.error e → handleSaveVoucher st vd = (st, some e)) := by
  constructor
  · intro st vd inv p hfind hp
    refine ⟨_, recordPayment_found hfind, rfl, ?_, ?_⟩
    · have hmem := applyVoucher_mem hfind
      have hav : applyVoucher inv vd.amount =
          { inv with
              paidAmount := some (p + vd.amount)
              remainingAmount := inv.total - (p + vd.amount)
              status := if inv.total - (p + vd.amount) ≤ 0 then Status.paid
                        else Status.partlyPaid } := by
        simp [applyVoucher, hp]
      rw [← hav]
      exact hmem
    · intro i hi hne
      exact mem_of_map_ne hfind hi hne
  · intro st vd e h
    unfold handleSaveVoucher
    rw [h]

/-- Witness for C1 at a concrete store: paying 30 against the invoice
with total 100 and paidAmount 40. -/
theorem C1_witness :
    ∃ st', recordPayment st0 vd30 = Except.ok st' ∧
      st'.vouchers = st0.vouchers
        ++ [mkVoucher vd30 (nextNumber (st0.vouchers.map (·.voucherNumber)) 1)] ∧
      { inv100 with
          paidAmount := some ((40 : ℚ) + vd30.amount)
          remainingAmount := inv100.total - ((40 : ℚ) + vd30.amount)
          status := if inv100.total - ((40 : ℚ) + vd30.amount) ≤ 0 then Status.paid
                    else Status.partlyPaid } ∈ st'.invoices ∧
      (∀ i ∈ st'.invoices, i.id ≠ vd30.invoiceId → i ∈ st0.invoices) :=
  C1_payment_transaction.1 st0 vd30 inv100 40 rfl rfl

/-- C2: the invariant `remainingAmount = total - paidAmount` holds after
each of the three mutating operations: invoice creation, invoice edit,
and payment recording (every invoice of the post-payment store is either
untouched or satisfies the invariant). -/
theorem C2_remaining_invariant :
    (∀ (existing : List Invoice) (newId : Nat) (f : InvoiceForm),
      remInvariant (invoiceSaveCreate existing newId f)) ∧
    (∀ (inv : Invoice) (f : InvoiceForm), remInvariant (invoiceSaveEdit inv f)) ∧
    (∀ (st : Store) (vd : VoucherData) (st' : Store),
      recordPayment st vd = Except.ok st' →
      ∀ i ∈ st'.invoices, i ∈ st.invoices ∨ remInvariant i) := by
  refine ⟨?_, ?_, ?_⟩
  · intro existing newId f
    simp [remInvariant, invoiceSaveCreate]
  · intro inv f
    simp [remInvariant, invoiceSaveEdit]
  · intro st vd st' h i hi
    cases hf : st.invoices.find? (fun j => j.id == vd.invoiceId) with
    | none =>
      simp only [recordPayment, hf] at h
      exact Except.noConfusion h
    | some inv =>
      rw [recordPayment_found hf] at h
      have h' := Except.ok.inj h
      rw [← h'] at hi
      obtain ⟨j, hj, hji⟩ := List.mem_map.mp hi
      by_cases hc : (j.id == vd.invoiceId) = true
      · rw [if_pos hc] at hji
        right
        rw [← hji]
        simp [remInvariant, applyVoucher]
      · rw [if_neg hc] at hji
        left
        rw [← hji]
        exact hj

/-- Witness for C2 at concrete inputs for all three operations. -/
theorem C2_witness :
    remInvariant (invoiceSaveCreate [] 7 form20) ∧
    remInvariant (invoiceSaveEdit inv100 form20) ∧
    (∀ i ∈ (Store.mk [applyVoucher inv100 vd30.amount, invNone]
        [mkVoucher vd30 1]).invoices, i ∈ st0.invoices ∨ remInvariant i) :=
  ⟨C2_remaining_invariant.1 [] 7 form20,
   C2_remaining_invariant.2.1 inv100 form20,
   C2_remaining_invariant.2.2 st0 vd30 _ (by rfl)⟩

/-- C3 counterexample: a payment with amount -5 ≤ 0 against an existing
invoice does NOT fail — the transaction commits, a voucher is created and
the invoice is changed, refuting the claimed `InvalidAmount` rejection. -/
theorem C3_counterexample :
    vdNeg.amount ≤ 0 ∧
    (handleSaveVoucher st0 vdNeg).2 = none ∧
    (handleSaveVoucher st0 vdNeg).1.vouchers = [mkVoucher vdNeg 1] ∧
    (handleSaveVoucher st0 vdNeg).1.invoices ≠ st0.invoices := by
  refine ⟨by norm_num [vdNeg, vd30], rfl, rfl, ?_⟩
  intro hEq
  have hEq' : [applyVoucher inv100 vdNeg.amount, invNone] = [inv100, invNone] := hEq
  have h1 : applyVoucher inv100 vdNeg.amount = inv100 := by
    injection hEq'
  have h2 : (applyVoucher inv100 vdNeg.amount).paidAmount = some ((40 : ℚ) + (-5)) := rfl
  rw [h1] at h2
  have h3 : some ((40 : ℚ)) = some ((40 : ℚ) + (-5)) := h2
  have h4 := Option.some.inj h3
  norm_num at h4

/-- C3 amended: `recordPayment` performs no validation of the amount —
against an existing invoice every amount (including amount ≤ 0) commits
and creates a voucher with that amount; no `InvalidAmount` error exists,
the only possible error is `NotFound`. -/
theorem C3_no_amount_validation :
    (∀ (st : Store) (vd : VoucherData) (inv : Invoice),
      st.invoices.find? (fun i => i.id == vd.invoiceId) = some inv →
      ∃ st', recordPayment st vd = Except.ok st' ∧
        st'.vouchers = st.vouchers
          ++ [mkVoucher vd (nextNumber (st.vouchers.map (·.voucherNumber)) 1)]) ∧
    (∀ (st : Store) (vd : VoucherData) (e : PayError),
      recordPayment st vd = Except.error e → e = PayError.notFound) := by
  constructor
  · intro st vd inv hfind
    exact ⟨_, recordPayment_found hfind, rfl⟩
  · intro st vd e h
    cases e
    rfl

/-- Witness for the amended C3: the -5 payment against invoice 1. -/
theorem C3_witness :
    ∃ st', recordPayment st0 vdNeg = Except.ok st' ∧
      st'.vouchers = st0.vouchers
        ++ [mkVoucher vdNeg (nextNumber (st0.vouchers.map (·.voucherNumber)) 1)] :=
  C3_no_amount_validation.1 st0 vdNeg inv100 rfl

/-- C4 counterexample: editing the invoice (total 100, paid 40, status
PartiallyPaid) down to items totalling 20 persists total 20, paid 40 and
the OLD status PartiallyPaid, while the claimed derivation gives Paid
(remaining 20 - 40 ≤ 0) — the status is not recomputed on invoice save. -/
theorem C4_counterexample :
    (invoiceSaveEdit inv100 form20).total = 20 ∧
    (invoiceSaveEdit inv100 form20).paidAmount = some 40 ∧
    (invoiceSaveEdit inv100 form20).status = Status.partlyPaid ∧
    deriveStatusSpec (invoiceSaveEdit inv100 form20).total
        ((invoiceSaveEdit inv100 form20).paidAmount.getD 0) = Status.paid ∧
    (invoiceSaveEdit inv100 form20).status
      ≠ deriveStatusSpec (invoiceSaveEdit inv100 form20).total
          ((invoiceSaveEdit inv100 form20).paidAmount.getD 0) := by
  have ht : (invoiceSaveEdit inv100 form20).total = 20 := by
    norm_num [invoiceSaveEdit, calculateTotal, List.foldl_cons, List.foldl_nil, form20]
  have hp : (invoiceSaveEdit inv100 form20).paidAmount = some 40 := by
    simp [invoiceSaveEdit, inv100]
  have hs : (invoiceSaveEdit inv100 form20).status = Status.partlyPaid := rfl
  have hd : deriveStatusSpec (invoiceSaveEdit inv100 form20).total
      ((invoiceSaveEdit inv100 form20).paidAmount.getD 0) = Status.paid := by
    rw [ht, hp]
    norm_num [deriveStatusSpec]
  refine ⟨ht, hp, hs, hd, ?_⟩
  rw [hs, hd]
  intro hcontra
  exact Status.noConfusion hcontra

/-- C4 amended: invoice save does not recompute status from
(total, paidAmount): creation always persists `Pending` (which matches
the derivation only because `paidAmount` starts at 0, and only when
total > 0), an edit persists the prior stored status unchanged, and only
the payment transaction recomputes status (as Paid iff the new remaining
is ≤ 0, else PartiallyPaid). -/
theorem C4_status_on_save :
    (∀ (existing : List Invoice) (newId : Nat) (f : InvoiceForm),
      (invoiceSaveCreate existing newId f).status = Status.pending) ∧
    (∀ (existing : List Invoice) (newId : Nat) (f : InvoiceForm),
      0 < calculateTotal f.items →
      (invoiceSaveCreate existing newId f).status
        = deriveStatusSpec (invoiceSaveCreate existing newId f).total
            ((invoiceSaveCreate existing newId f).paidAmount.getD 0)) ∧
    (∀ (inv : Invoice) (f : InvoiceForm), (invoiceSaveEdit inv f).status = inv.status) ∧
    (∀ (inv : Invoice) (amount : ℚ),
      (applyVoucher inv amount).status
        = if inv.total - (inv.paidAmount.getD 0 + amount) ≤ 0 then Status.paid
          else Status.partlyPaid) := by
  refine ⟨fun _ _ _ => rfl, ?_, fun _ _ => rfl, fun _ _ => rfl⟩
  intro existing newId f h
  have h1 : ¬ calculateTotal f.items ≤ 0 := not_le.mpr h
  simp [invoiceSaveCreate, deriveStatusSpec, h1]

/-- Witness for the amended C4 at concrete inputs. -/
theorem C4_witness :
    (invoiceSaveCreate [] 7 form20).status = Status.pending ∧
    (invoiceSaveCreate [] 7 form20).status
      = deriveStatusSpec (invoiceSaveCreate [] 7 form20).total
          ((invoiceSaveCreate [] 7 form20).paidAmount.getD 0) ∧
    (invoiceSaveEdit inv100 form20).status = inv100.status ∧
    (applyVoucher inv100 vd30.amount).status
      = if inv100.total - (inv100.paidAmount.getD 0 + vd30.amount) ≤ 0 then Status.paid
        else Status.partlyPaid :=
  ⟨C4_status_on_save.1 [] 7 form20,
   C4_status_on_save.2.1 [] 7 form20
     (by norm_num [calculateTotal, List.foldl_cons, List.foldl_nil, form20]),
   C4_status_on_save.2.2.1 inv100 form20,
   C4_status_on_save.2.2.2 inv100 vd30.amount⟩

/-- C5: a payment exceeding the invoice's remaining amount is accepted
without rejection, the stored remainingAmount becomes negative, and the
resulting status is Paid. -/
theorem C5_overpayment :
    ∀ (st : Store) (vd : VoucherData) (inv : Invoice) (p : ℚ),
      st.invoices.find? (fun i => i.id == vd.invoiceId) = some inv →
      inv.paidAmount = some p →
      inv.total - p < vd.amount →
      ∃ st', recordPayment st vd = Except.ok st' ∧
        (applyVoucher inv vd.amount).remainingAmount < 0 ∧
        (applyVoucher inv vd.amount).status = Status.paid ∧
        applyVoucher inv vd.amount ∈ st'.invoices := by
  intro st vd inv p hfind hp hover
  have hneg : inv.total - (inv.paidAmount.getD 0 + vd.amount) < 0 := by
    rw [hp]
    simp only [Option.getD_some]
    linarith
  have hrem : (applyVoucher inv vd.amount).remainingAmount < 0 := by
    simpa [applyVoucher] using hneg
  have hstat : (applyVoucher inv vd.amount).status = Status.paid := by
    simp [applyVoucher, le_of_lt hneg]
  exact ⟨_, recordPayment_found hfind, hrem, hstat, applyVoucher_mem hfind⟩

/-- Witness for C5: paying 100 against the invoice with remaining 60. -/
theorem C5_witness :
    ∃ st', recordPayment st0 vdOver = Except.ok st' ∧
      (applyVoucher inv100 vdOver.amount).remainingAmount < 0 ∧
      (applyVoucher inv100 vdOver.amount).status = Status.paid ∧
      applyVoucher inv100 vdOver.amount ∈ st'.invoices :=
  C5_overpayment st0 vdOver inv100 40 rfl rfl (by norm_num [inv100, vdOver, vd30])

/-- C6: when the target invoice does not exist at transaction time, the
operation fails with NotFound, the transaction aborts, and no partial
write becomes visible — the caller's store is completely unchanged. -/
theorem C6_notfound_aborts :
    ∀ (st : Store) (vd : VoucherData),
      st.invoices.find? (fun i => i.id == vd.invoiceId) = none →
      handleSaveVoucher st vd = (st, some PayError.notFound) := by
  intro st vd h
  unfold handleSaveVoucher recordPayment
  rw [h]

/-- Witness for C6: paying against invoice id 99 which is not in the
store. -/
theorem C6_witness :
    handleSaveVoucher st0 vdMissing = (st0, some PayError.notFound) :=
  C6_notfound_aborts st0 vdMissing rfl

/-- C7: the number allocator returns the floor on an empty collection and
max + 1 otherwise (with the two worked examples of the spec); invoice
creation uses it with floor 1001 and the payment transaction allocates
voucher numbers with floor 1. -/
theorem C7_nextNumber_allocation :
    nextNumber [] 1001 = 1001 ∧
    nextNumber [1001, 1005] 1001 = 1006 ∧
    (∀ (l : List Int) (base : Int), l ≠ [] →
      ∃ m ∈ l, nextNumber l base = m + 1 ∧ ∀ x ∈ l, x ≤ m) ∧
    (∀ (existing : List Invoice) (newId : Nat) (f : InvoiceForm),
      (invoiceSaveCreate existing newId f).invoiceNumber
        = nextNumber (existing.map (·.invoiceNumber)) 1001) ∧
    (∀ (st : Store) (vd : VoucherData) (st' : Store),
      recordPayment st vd = Except.ok st' →
      st'.vouchers.map (·.voucherNumber)
        = st.vouchers.map (·.voucherNumber)
          ++ [nextNumber (st.vouchers.map (·.voucherNumber)) 1]) := by
  refine ⟨rfl, by decide, ?_, fun _ _ _ => rfl, ?_⟩
  · intro l base hl
    match l with
    | [] => exact absurd rfl hl
    | n :: ns =>
      refine ⟨ns.foldl max n, ?_, rfl, ?_⟩
      · rcases foldl_max_mem ns n with h | h
        · rw [h]
          exact List.mem_cons_self n ns
        · exact List.mem_cons_of_mem n h
      · intro x hx
        rcases List.mem_cons.mp hx with h | h
        · rw [h]
          exact foldl_max_init_le ns n
        · exact foldl_max_le_of_mem ns n x h
  · intro st vd st' h
    cases hf : st.invoices.find? (fun j => j.id == vd.invoiceId) with
    | none =>
      simp only [recordPayment, hf] at h
      exact Except.noConfusion h
    | some inv =>
      rw [recordPayment_found hf] at h
      rw [← Except.ok.inj h]
      simp [mkVoucher]

/-- Witness for C7: the max-plus-one characterisation at [1001, 1005] and
the voucher-number allocation at a concrete payment. -/
theorem C7_witness :
    (∃ m ∈ ([1001, 1005] : List Int), nextNumber [1001, 1005] 1001 = m + 1 ∧
      ∀ x ∈ ([1001, 1005] : List Int), x ≤ m) ∧
    (Store.mk [applyVoucher inv100 vd30.amount, invNone]
        [mkVoucher vd30 1]).vouchers.map (·.voucherNumber)
      = st0.vouchers.map (·.voucherNumber)
        ++ [nextNumber (st0.vouchers.map (·.voucherNumber)) 1] :=
  ⟨C7_nextNumber_allocation.2.2.1 [1001, 1005] 1001 (by decide),
   C7_nextNumber_allocation.2.2.2.2 st0 vd30 _ (by rfl)⟩

/-- C8: `computeTotal` is the sum over items of quantity × price (with
the spec's worked example), and both invoice-save branches persist
exactly this total of the submitted items. -/
theorem C8_computeTotal_sum :
    calculateTotal [{ serviceId := "", name := "", quantity := 2, price := 150 },
                    { serviceId := "", name := "", quantity := 1, price := 300 }] = 600 ∧
    (∀ items : List LineItem,
      calculateTotal items = (items.map fun it => it.quantity * it.price).sum) ∧
    (∀ (existing : List Invoice) (newId : Nat) (f : InvoiceForm),
      (invoiceSaveCreate existing newId f).total = calculateTotal f.items) ∧
    (∀ (inv : Invoice) (f : InvoiceForm),
      (invoiceSaveEdit inv f).total = calculateTotal f.items) :=
  ⟨by norm_num [calculateTotal, List.foldl_cons, List.foldl_nil],
   calculateTotal_eq_sum, fun _ _ _ => rfl, fun _ _ => rfl⟩

/-- C9: the dashboard rollup groups invoices by calendar month through the
fixed 12-entry locale month-name table, the bucket order is first-seen
insertion order (not calendar order), each bucket's sales is the sum of
the totals of the invoices of that month, totalSales is the sum of all
totals, and estimatedProfit is totalSales × 0.25. -/
theorem C9_dashboard_rollup :
    monthNames.length = 12 ∧
    (∀ invs : List Invoice, totalSales invs = (invs.map (·.total)).sum) ∧
    (∀ invs : List Invoice, estimatedProfit invs = totalSales invs * (1 / 4)) ∧
    (∀ invs : List Invoice,
      (monthlySales invs).map (·.name) = firstSeen (invs.map fun i => monthName i.month)) ∧
    (∀ (invs : List Invoice) (b : MonthBucket), b ∈ monthlySales invs →
      b.sales = ((invs.filter fun i => monthName i.month == b.name).map (·.total)).sum) := by
  refine ⟨rfl, ?_, ?_, monthlySales_names, monthlySales_bucket⟩
  · intro invs
    unfold totalSales
    simpa using foldl_add_map_sum (fun i : Invoice => i.total) invs 0
  · intro invs
    unfold estimatedProfit
    norm_num

/-- Witness for C9: the second bucket of the three sample invoices
(months 0, 1, 0 with totals 100, 100, 50) is the month-1 bucket with
sales 100, and its sales equals the filtered sum. -/
theorem C9_witness :
    MonthBucket.mk (monthName 1) 100 ∈ monthlySales dashInvs ∧
    (MonthBucket.mk (monthName 1) 100).sales
      = ((dashInvs.filter fun i =>
            monthName i.month == (MonthBucket.mk (monthName 1) 100).name).map (·.total)).sum :=
  have hmem : MonthBucket.mk (monthName 1) 100 ∈ monthlySales dashInvs :=
    List.mem_cons_of_mem _ (List.mem_cons_self _ _)
  ⟨hmem, C9_dashboard_rollup.2.2.2.2 dashInvs (MonthBucket.mk (monthName 1) 100) hmem⟩

/-- C10: when the stored `paidAmount` is absent, `recordPayment` treats
the prior paid amount as 0: the new paidAmount equals the voucher amount
and the new remainingAmount equals total minus the voucher amount. -/
theorem C10_absent_paid_as_zero :
    ∀ (st : Store) (vd : VoucherData) (inv : Invoice),
      st.invoices.find? (fun i => i.id == vd.invoiceId) = some inv →
      inv.paidAmount = none →
      ∃ st', recordPayment st vd = Except.ok st' ∧
        (applyVoucher inv vd.amount).paidAmount = some vd.amount ∧
        (applyVoucher inv vd.amount).remainingAmount = inv.total - vd.amount ∧
        applyVoucher inv vd.amount ∈ st'.invoices := by
  intro st vd inv hfind hp
  refine ⟨_, recordPayment_found hfind, ?_, ?_, applyVoucher_mem hfind⟩
  · simp [applyVoucher, hp]
  · simp [applyVoucher, hp]

/-- Witness for C10: paying 25 against the invoice whose stored
paidAmount is absent. -/
theorem C10_witness :
    ∃ st', recordPayment st0 vdAbsent = Except.ok st' ∧
      (applyVoucher invNone vdAbsent.amount).paidAmount = some vdAbsent.amount ∧
      (applyVoucher invNone vdAbsent.amount).remainingAmount
        = invNone.total - vdAbsent.amount ∧
      applyVoucher invNone vdAbsent.amount ∈ st'.invoices :=
  C10_absent_paid_as_zero st0 vdAbsent invNone rfl rfl

end Pruhteam
